import Mathlib

/-!
Verification development for the django-file-organizer repository.

The Python core is shallowly embedded below:

* `organizer/file_organizer.py` — extension classification, owner
  inference, collision-safe placement, per-file organization and the
  run/session state machine (`FileOrganizer`).
* `organizer/views.py` — the second generation of the relocation
  pipeline (`process_files`, `extract_owner_name`,
  `handle_duplicate_filename`).
* `organizer/text_analysis.py` — text extraction, keyword extraction,
  CSV data-type inference and PII detection.

Filesystem state is modelled as the list of destination paths that
exist (`List String`); fallible side effects (stat, mkdir, move,
database writes) are modelled as `Except String` outcomes supplied per
file.  Strings are Lean `String`s; Python `str.lower()` is modelled in
its ASCII range, which covers every string constant the embedded code
compares against.
-/

/-- ASCII lowercasing of one character: model of Python `str.lower()`
restricted to ASCII, which is the range the embedded code's comparisons
live in.  Maps `A`–`Z` (codepoints 65–90) to `a`–`z`, fixes the rest. -/
def lowerChar (c : Char) : Char :=
  if 65 ≤ c.toNat ∧ c.toNat ≤ 90 then Char.ofNat (c.toNat + 32) else c

/-- ASCII lowercasing of a string (Python `s.lower()`). -/
def asciiLower (s : String) : String := ⟨s.data.map lowerChar⟩

/-- ASCII decimal digit test (regex `\d` on ASCII). -/
def isDigitChar (c : Char) : Bool := 48 ≤ c.toNat && c.toNat ≤ 57

/-- ASCII letter test (regex `[a-zA-Z]`). -/
def isAlphaChar (c : Char) : Bool :=
  (65 ≤ c.toNat && c.toNat ≤ 90) || (97 ≤ c.toNat && c.toNat ≤ 122)

/-- ASCII uppercase letter test (regex `[A-Z]`). -/
def isUpperChar (c : Char) : Bool := 65 ≤ c.toNat && c.toNat ≤ 90

/-- ASCII lowercase letter test (regex `[a-z]`). -/
def isLowerChar (c : Char) : Bool := 97 ≤ c.toNat && c.toNat ≤ 122

/-- Whitespace test (Python `str.split()` / regex `\s`, ASCII range). -/
def isSpaceChar (c : Char) : Bool :=
  c == ' ' || c == '\t' || c == '\n' || c == '\r' || c == '\x0b' || c == '\x0c'

/-- Word-character test (regex `\w`, ASCII range). -/
def isWordChar (c : Char) : Bool := isAlphaChar c || isDigitChar c || c == '_'

/-- The decimal digit character of `n % 10` (`'0'`–`'9'`). -/
def digitChar (n : Nat) : Char := Char.ofNat (48 + n % 10)

/-- Decimal digit list of `n`, most significant first, driven by fuel
(model of Python `str(n)` for natural `n`; any fuel above the digit
count gives the same digits). -/
def digitsAux : Nat → Nat → List Char
  | 0, _ => []
  | fuel + 1, n => if n < 10 then [digitChar n] else digitsAux fuel (n / 10) ++ [digitChar (n % 10)]

/-- Decimal rendering of a natural number (Python `str(n)` / f-string
interpolation of a counter). -/
def natStr (n : Nat) : String := ⟨digitsAux (n + 1) n⟩

/-- Numeric value of one ASCII digit character. -/
def parseDigit (c : Char) : Nat := c.toNat - 48

/-- Numeric value of a digit list (Python `int(s)` on digit strings). -/
def parseNatList (l : List Char) : Nat := l.foldl (fun a c => a * 10 + parseDigit c) 0

/-- Join a directory path and a component (Python `Path` `/` operator and
`os.path.join` with a relative component). -/
def pathJoin (dir name : String) : String := dir ++ "/" ++ name

/-- Index of the last `'.'` in a character list (Python `str.rfind('.')`
restricted to found/not-found form). -/
def lastDotPos : List Char → Option Nat
  | [] => none
  | c :: cs =>
    match lastDotPos cs with
    | some i => some (i + 1)
    | none => if c = '.' then some 0 else none

/-- Split a basename into `(root, extension)`: model of
`os.path.splitext` on a path without directory separators, used by
`generate_unique_filename` (file_organizer.py line 173) and
`handle_duplicate_filename` (views.py line 202).  The extension starts
at the last dot unless every character before that dot is itself a dot
(leading-dot names such as `.bashrc` or `..a` have no extension). -/
def splitext (p : String) : String × String :=
  match lastDotPos p.data with
  | none => (p, "")
  | some i =>
    if (p.data.take i).all (fun c => c == '.') then (p, "")
    else (⟨p.data.take i⟩, ⟨p.data.drop i⟩)

/-- Extension of a basename: model of `pathlib.PurePath.suffix`, which
takes the part from the last dot only when that dot is neither the
first nor the last character of the name. -/
def pathSuffix (name : String) : String :=
  match lastDotPos name.data with
  | none => ""
  | some i =>
    if 0 < i ∧ i < name.data.length - 1 then ⟨name.data.drop i⟩ else ""

/-- Basename without its extension: model of `pathlib.PurePath.stem`. -/
def pathStem (name : String) : String :=
  match lastDotPos name.data with
  | none => name
  | some i =>
    if 0 < i ∧ i < name.data.length - 1 then ⟨name.data.take i⟩ else name

/-- First-match association-list lookup (Python `dict.get` over the
literal dictionaries below, whose keys are distinct). -/
def lookupStr (m : List (String × String)) (k : String) : Option String :=
  (m.find? (fun p => p.1 == k)).map (fun p => p.2)

/-- The static extension-to-category table `FileOrganizer.FILE_TYPE_MAPPINGS`
(file_organizer.py lines 17-78). -/
def FILE_TYPE_MAPPINGS : List (String × String) :=
  [(".png", "pngfiles"), (".jpg", "jpgfiles"), (".jpeg", "jpgfiles"),
   (".gif", "giffiles"), (".bmp", "bmpfiles"), (".tiff", "tifffiles"),
   (".webp", "webpfiles"),
   (".mp4", "mp4files"), (".avi", "avifiles"), (".mov", "movfiles"),
   (".wmv", "wmvfiles"), (".flv", "flvfiles"), (".webm", "webmfiles"),
   (".mkv", "mkvfiles"),
   (".pdf", "pdffiles"), (".doc", "docfiles"), (".docx", "docxfiles"),
   (".txt", "txtfiles"), (".rtf", "rtffiles"),
   (".csv", "csvfiles"), (".xls", "xlsfiles"), (".xlsx", "xlsxfiles"),
   (".ppt", "pptfiles"), (".pptx", "pptxfiles"),
   (".zip", "zipfiles"), (".rar", "rarfiles"), (".7z", "7zfiles"),
   (".tar", "tarfiles"), (".gz", "gzfiles"),
   (".mp3", "mp3files"), (".wav", "wavfiles"), (".flac", "flacfiles"),
   (".aac", "aacfiles"),
   (".py", "pyfiles"), (".js", "jsfiles"), (".html", "htmlfiles"),
   (".css", "cssfiles"), (".java", "javafiles"), (".cpp", "cppfiles"),
   (".c", "cfiles"),
   (".json", "jsonfiles"), (".xml", "xmlfiles"), (".sql", "sqlfiles")]

/-- The known owner prefixes `FileOrganizer.KNOWN_OWNERS`
(file_organizer.py line 81). -/
def KNOWN_OWNERS : List String := ["rohith", "sachin", "nitin", "himani"]

/-- Category folder for a file, `FileOrganizer.get_file_type_category`
(file_organizer.py lines 119-130): the lowercased `pathlib` suffix
looked up in the static table, defaulting to `otherfiles`. -/
def get_file_type_category (filename : String) : String :=
  (lookupStr FILE_TYPE_MAPPINGS (asciiLower (pathSuffix filename))).getD "otherfiles"

/-- Bool prefix test on strings (Python `str.startswith`). -/
def startsWithStr (s p : String) : Bool := p.data.isPrefixOf s.data

/-- The leading-letters group of `re.match(r'^([a-zA-Z]+)[_-]', filename)`
(file_organizer.py line 150): the maximal leading run of ASCII letters,
provided it is non-empty and immediately followed by `'_'` or `'-'`. -/
def leadingAlphaDelim (s : String) : Option String :=
  if (s.data.takeWhile isAlphaChar).isEmpty then none
  else
    match s.data.drop (s.data.takeWhile isAlphaChar).length with
    | c :: _ =>
      if c = '_' ∨ c = '-' then some ⟨s.data.takeWhile isAlphaChar⟩ else none
    | [] => none

/-- Owner inference, `FileOrganizer.extract_owner_name`
(file_organizer.py lines 132-154): first known-owner prefix of the
lowercased filename, else the lowercased leading-letters group before a
`'_'`/`'-'` delimiter, else `"unknown"`.  The known-owner list is a
parameter because the class attribute is documented as extensible. -/
def extract_owner_name (owners : List String) (filename : String) : String :=
  match owners.find? (fun o => startsWithStr (asciiLower filename) o) with
  | some o => o
  | none =>
    match leadingAlphaDelim filename with
    | some p => asciiLower p
    | none => "unknown"

/-- Candidate collision-avoiding name `f"{name}_{counter}{ext}"`
(file_organizer.py line 177). -/
def candName (stem ext : String) (k : Nat) : String :=
  stem ++ "_" ++ natStr k ++ ext

/-- The probing loop of `generate_unique_filename` (file_organizer.py
lines 176-181): starting at counter `k`, return the first candidate name
whose path does not exist in the filesystem `fs`, together with the
counter used.  `fuel` bounds the search; `fs.length + 1` suffices. -/
def probeName (fs : List String) (dir stem ext : String) : Nat → Nat → Option (String × Nat)
  | 0, _ => none
  | fuel + 1, k =>
    if fs.contains (pathJoin dir (candName stem ext k)) then
      probeName fs dir stem ext fuel (k + 1)
    else some (candName stem ext k, k)

/-- Collision-safe destination, `FileOrganizer.generate_unique_filename`
(file_organizer.py lines 156-181): the unchanged path when free,
otherwise the first `stem_k.ext` probe that is free.  Returns the pair
(full path, final component); Python returns the path and reads the
component back with `.name`.  The `none` fallback is unreachable
(`probeName_pigeonhole` below). -/
def generate_unique_filename (fs : List String) (dir fname : String) : String × String :=
  if fs.contains (pathJoin dir fname) then
    match probeName fs dir (splitext fname).1 (splitext fname).2 (fs.length + 1) 1 with
    | some nk => (pathJoin dir nk.1, nk.1)
    | none => (pathJoin dir fname, fname)
  else (pathJoin dir fname, fname)

/-- The counter read back from a generated stem, embedding
`re.search(r'_(\d+)$', stem)` followed by `int(...)` (file_organizer.py
lines 235-237): the maximal digit suffix when non-empty and preceded by
`'_'`, else 0 (no match leaves the counter at its initial 0). -/
def counterOfStem (stem : String) : Nat :=
  let r := stem.data.reverse
  let ds := r.takeWhile isDigitChar
  match r.drop ds.length with
  | c :: _ => if c = '_' ∧ ds ≠ [] then parseNatList ds.reverse else 0
  | [] => 0

/-- Collision-safe placement: `generate_unique_filename` combined with
the duplicate bookkeeping of `organize_file` (file_organizer.py lines
226-237).  Returns (destination path, `is_duplicate`,
`duplicate_counter`). -/
def place (fs : List String) (dir fname : String) : String × Bool × Nat :=
  let t := generate_unique_filename fs dir fname
  let dup : Bool := t.2 != fname
  (t.1, dup, if dup then counterOfStem (pathStem t.2) else 0)

/-- Outcomes of the fallible side effects performed for one file inside
`organize_file` (file_organizer.py lines 212-254): `file_path.stat()`,
`owner_dir.mkdir`, `shutil.move` and `FileMetadata.objects.create`.
An `error` value models the step raising an exception with that
message. -/
structure FileEffects where
  statSize : Except String Nat
  mkdirOk : Except String Unit
  moveOk : Except String Unit
  createOk : Except String Unit

/-- One file discovered by the scan: its full path (used in error
messages), its basename, and the outcomes of its side effects. -/
structure FileInput where
  path : String
  name : String
  eff : FileEffects

/-- The `FileMetadata` record created for a successfully organized file
(file_organizer.py lines 244-254). -/
structure FileMeta where
  original_path : String
  new_path : String
  filename : String
  file_type : String
  file_size : Nat
  owner_name : String
  is_duplicate : Bool
  duplicate_counter : Nat

/-- The `self.stats` dictionary of `FileOrganizer` (file_organizer.py
lines 101-107); the two count dictionaries are insertion-ordered
association lists. -/
structure Stats where
  total : Nat
  byType : List (String × Nat)
  byOwner : List (String × Nat)
  duplicates : Nat
  errors : List String

/-- Python `d[key] = d.get(key, 0) + 1` on an insertion-ordered dict. -/
def bumpCount (m : List (String × Nat)) (k : String) : List (String × Nat) :=
  match m with
  | [] => [(k, 1)]
  | (k2, v) :: rest => if k2 == k then (k2, v + 1) :: rest else (k2, v) :: bumpCount rest k

/-- The error message format of `organize_file`'s exception handler
(file_organizer.py line 264). -/
def orgError (f : FileInput) (e : String) : String :=
  "Error organizing file " ++ f.path ++ ": " ++ e

/-- `FileOrganizer.organize_file` (file_organizer.py lines 202-266):
classify, infer the owner, stat, make the owner directory, pick a
collision-safe destination, move, create the metadata record, and only
then update `total`/`by_type`/`by_owner`; any failing step lands in the
exception handler, which appends one error message and leaves the
counts alone.  Returns the updated stats, the updated destination
filesystem (the moved file now exists), and the created record. -/
def organize_file (outDir : String) (fs : List String) (st : Stats) (f : FileInput) :
    Stats × List String × Option FileMeta :=
  let cat := get_file_type_category f.name
  let owner := extract_owner_name KNOWN_OWNERS f.name
  match f.eff.statSize with
  | .error e => ({ st with errors := st.errors ++ [orgError f e] }, fs, none)
  | .ok size =>
    match f.eff.mkdirOk with
    | .error e => ({ st with errors := st.errors ++ [orgError f e] }, fs, none)
    | .ok _ =>
      let ownerDir := pathJoin (pathJoin outDir cat) owner
      let tgt := generate_unique_filename fs ownerDir f.name
      let dup : Bool := tgt.2 != f.name
      let counter := if dup then counterOfStem (pathStem tgt.2) else 0
      let st1 := if dup then { st with duplicates := st.duplicates + 1 } else st
      match f.eff.moveOk with
      | .error e => ({ st1 with errors := st1.errors ++ [orgError f e] }, fs, none)
      | .ok _ =>
        match f.eff.createOk with
        | .error e => ({ st1 with errors := st1.errors ++ [orgError f e] }, fs ++ [tgt.1], none)
        | .ok _ =>
          ({ st1 with
              total := st1.total + 1,
              byType := bumpCount st1.byType cat,
              byOwner := bumpCount st1.byOwner owner },
            fs ++ [tgt.1],
            some { original_path := f.path, new_path := tgt.1, filename := f.name,
                   file_type := asciiLower (pathSuffix f.name), file_size := size,
                   owner_name := owner, is_duplicate := dup, duplicate_counter := counter })

/-- The first failing effect of a file, in the order `organize_file`
performs them; `none` means the file is processed successfully. -/
def fileFailure (f : FileInput) : Option String :=
  match f.eff.statSize with
  | .error e => some e
  | .ok _ =>
    match f.eff.mkdirOk with
    | .error e => some e
    | .ok _ =>
      match f.eff.moveOk with
      | .error e => some e
      | .ok _ =>
        match f.eff.createOk with
        | .error e => some e
        | .ok _ => none

/-- The error-list contribution of one file. -/
def failMsgList (f : FileInput) : List String :=
  match fileFailure f with
  | some e => [orgError f e]
  | none => []

/-- Session status values of `ProcessingSession.status`. -/
inductive SessStatus
  | running
  | completed
  | failed
deriving DecidableEq

/-- The `ProcessingSession` fields the engine mutates
(`completed_at_set` models whether `completed_at` was assigned). -/
structure SessionRec where
  status : SessStatus
  total_files_processed : Nat
  files_by_type : List (String × Nat)
  files_by_owner : List (String × Nat)
  completed_at_set : Bool
  error_message : Option String

/-- The dictionary returned by `FileOrganizer.get_results`
(file_organizer.py lines 315-331). -/
structure RunResult where
  total_files : Nat
  files_by_type : List (String × Nat)
  files_by_owner : List (String × Nat)
  duplicates : Nat
  errors : List String
  output_directory : String
  success : Bool

/-- `FileOrganizer.get_results`: `success` is `len(errors) == 0`. -/
def get_results (outDir : String) (st : Stats) : RunResult :=
  { total_files := st.total, files_by_type := st.byType, files_by_owner := st.byOwner,
    duplicates := st.duplicates, errors := st.errors, output_directory := outDir,
    success := st.errors.isEmpty }

/-- Result of `scan_files` (file_organizer.py lines 183-200): the files
collected by `os.walk`, plus the scan exception message if the walk
raised (the method catches it, records it, and returns the list so
far). -/
structure ScanResult where
  files : List FileInput
  scanErr : Option String

/-- The per-file loop of `organize_all_files` (lines 287-291), threading
stats and the destination filesystem through `organize_file`. -/
def processAll (outDir : String) : List FileInput → List String → Stats → Stats × List String
  | [], fs, st => (st, fs)
  | f :: rest, fs, st =>
    let r := organize_file outDir fs st f
    processAll outDir rest r.2.1 r.1

/-- The stats value at the start of a run, after `scan_files` has
recorded a scan error if any (file_organizer.py lines 101-107, 198). -/
def initialStats (scanErr : Option String) : Stats :=
  { total := 0, byType := [], byOwner := [], duplicates := 0,
    errors := match scanErr with
      | some e => ["Error scanning directory: " ++ e]
      | none => [] }

/-- `FileOrganizer.organize_all_files` (file_organizer.py lines
268-313).  The session is created at `running`; an empty scan appends
the "No files found" error and returns the results early, leaving the
session untouched; otherwise every file is processed and the session is
marked `completed`, unless the session-update step itself raises
(`finalizeErr`), in which case the session is marked `failed` with the
error message and "Processing failed" is appended to the errors. -/
def organize_all_files (outDir : String) (scan : ScanResult) (fs0 : List String)
    (finalizeErr : Option String) : SessionRec × RunResult :=
  let st0 := initialStats scan.scanErr
  if scan.files.isEmpty then
    ({ status := .running, total_files_processed := 0, files_by_type := [],
       files_by_owner := [], completed_at_set := false, error_message := none },
     get_results outDir
       { st0 with errors := st0.errors ++ ["No files found in the input directory"] })
  else
    let r := processAll outDir scan.files fs0 st0
    match finalizeErr with
    | none =>
      ({ status := .completed, total_files_processed := r.1.total,
         files_by_type := r.1.byType, files_by_owner := r.1.byOwner,
         completed_at_set := true, error_message := none },
       get_results outDir r.1)
    | some e =>
      ({ status := .failed, total_files_processed := r.1.total,
         files_by_type := r.1.byType, files_by_owner := r.1.byOwner,
         completed_at_set := true, error_message := some e },
       get_results outDir { r.1 with errors := r.1.errors ++ ["Processing failed: " ++ e] })

/-- Total of the counts in a stats dictionary. -/
def sumCounts (m : List (String × Nat)) : Nat := (m.map (fun p => p.2)).sum

/-- Concatenated per-file error messages of a run, in scan order. -/
def allFailMsgs : List FileInput → List String
  | [] => []
  | f :: rest => failMsgList f ++ allFailMsgs rest

/-- Count of files whose effects all succeed. -/
def countOk (files : List FileInput) : Nat :=
  (files.filter (fun f => (fileFailure f).isNone)).length

/-- The extension table of `views.process_files` (views.py lines
45-83). -/
def VIEW_FILE_TYPE_MAPPINGS : List (String × String) :=
  [(".png", "pngfiles"), (".jpg", "jpgfiles"), (".jpeg", "jpgfiles"),
   (".gif", "giffiles"), (".bmp", "bmpfiles"), (".tiff", "tifffiles"),
   (".mp4", "mp4files"), (".avi", "avifiles"), (".mov", "movfiles"),
   (".wmv", "wmvfiles"), (".flv", "flvfiles"),
   (".pdf", "pdffiles"), (".doc", "docfiles"), (".docx", "docxfiles"),
   (".txt", "txtfiles"), (".csv", "csvfiles"), (".xls", "xlsfiles"),
   (".xlsx", "xlsxfiles"), (".ppt", "pptfiles"), (".pptx", "pptxfiles"),
   (".mp3", "mp3files"), (".wav", "wavfiles"), (".flac", "flacfiles"),
   (".zip", "zipfiles"), (".rar", "rarfiles"), (".7z", "7zfiles"),
   (".html", "htmlfiles"), (".htm", "htmlfiles"), (".css", "cssfiles"),
   (".js", "jsfiles"), (".py", "pyfiles"), (".java", "javafiles"),
   (".cpp", "cppfiles"), (".c", "cfiles"), (".xml", "xmlfiles"),
   (".json", "jsonfiles"), (".sql", "sqlfiles")]

/-- `views.extract_owner_name` (views.py lines 181-191): the part of
`Path(filename).stem` before the first `'_'`, lowercased.  Python's
`stem.split('_')[0]` is the maximal prefix without `'_'`; `split` never
returns an empty list, so the `'unknown'` fallback branch is dead
code. -/
def views_extract_owner_name (filename : String) : String :=
  asciiLower ⟨(pathStem filename).data.takeWhile (fun c => c != '_')⟩

/-- `views.handle_duplicate_filename` (views.py lines 194-212): the same
probe loop as `FileOrganizer.generate_unique_filename`, written with
`os.path.join`/`os.path.splitext`; it returns the chosen path. -/
def handle_duplicate_filename (fs : List String) (directory filename : String) : String :=
  (generate_unique_filename fs directory filename).1

/-- The relocation core of `views.process_files` (views.py lines
91-145): walk the files in order; a file whose lowercased `pathlib`
suffix is a key of the extension table is moved to
`output/type_folder/owner/` under a collision-safe name, and the
destination starts existing; a file whose suffix is not in the table is
skipped entirely.  Returns the (filename, destination) moves, in
order. -/
def process_files_moves (outDir : String) : List String → List String → List (String × String)
  | [], _ => []
  | f :: rest, fs =>
    match lookupStr VIEW_FILE_TYPE_MAPPINGS (asciiLower (pathSuffix f)) with
    | none => process_files_moves outDir rest fs
    | some folder =>
      let dest := handle_duplicate_filename fs
        (pathJoin (pathJoin outDir folder) (views_extract_owner_name f)) f
      (f, dest) :: process_files_moves outDir rest (fs ++ [dest])

/-- The fallback stopword set of `extract_keywords`
(text_analysis.py lines 100/104). -/
def stop_words : List String :=
  ["the", "a", "an", "and", "or", "but", "in", "on", "at", "to", "for", "of",
   "with", "by", "is", "are", "was", "were", "be", "been", "have", "has", "had",
   "do", "does", "did", "will", "would", "could", "should", "may", "might",
   "must", "can", "this", "that", "these", "those", "i", "you", "he", "she",
   "it", "we", "they", "me", "him", "her", "us", "them"]

/-- `re.sub(r'[^\w\s]', ' ', s)`: replace every character that is
neither a word character nor whitespace by a space. -/
def stripPunct (s : String) : String :=
  ⟨s.data.map (fun c => if isWordChar c || isSpaceChar c then c else ' ')⟩

/-- Python `str.split()` with no argument: split on whitespace runs,
producing no empty tokens (`acc` is the current token, reversed). -/
def splitWsAux : List Char → List Char → List String
  | [], acc => if acc.isEmpty then [] else [⟨acc.reverse⟩]
  | c :: cs, acc =>
    if isSpaceChar c then
      if acc.isEmpty then splitWsAux cs [] else ⟨acc.reverse⟩ :: splitWsAux cs []
    else splitWsAux cs (c :: acc)

/-- Python `str.split()`. -/
def splitWs (s : String) : List String := splitWsAux s.data []

/-- Occurrence count of one token (`collections.Counter`). -/
def countOcc (l : List String) (w : String) : Nat := (l.filter (fun x => x == w)).length

/-- First-occurrence deduplication: the key order of a `Counter` built
by insertion. -/
def dedupFirstAux : List String → List String → List String
  | [], _ => []
  | w :: rest, seen =>
    if seen.contains w then dedupFirstAux rest seen
    else w :: dedupFirstAux rest (w :: seen)

/-- Keys of `Counter(words)` in first-encountered order. -/
def dedupFirst (l : List String) : List String := dedupFirstAux l []

/-- Insert an item after every already-placed item with a count greater
than or equal to its own. -/
def insertByCount (x : String × Nat) : List (String × Nat) → List (String × Nat)
  | [] => [x]
  | y :: ys => if y.2 < x.2 then x :: y :: ys else y :: insertByCount x ys

/-- Stable sort by descending count: the order produced by
`Counter.most_common` (descending frequency, ties in first-encountered
order). -/
def sortByCountDesc (l : List (String × Nat)) : List (String × Nat) :=
  l.foldl (fun acc x => insertByCount x acc) []

/-- Python `', '.join(...)`. -/
def joinCommaSep : List String → String
  | [] => ""
  | [w] => w
  | w :: rest => w ++ ", " ++ joinCommaSep rest

/-- The token list behind `extract_keywords` (text_analysis.py lines
89-111): lowercase, strip punctuation, split on whitespace, drop
stopwords and tokens of length at most 2, then the top `maxKeywords`
tokens by `Counter.most_common`. -/
def keywordList (text : String) (maxKeywords : Nat) : List String :=
  let filtered := (splitWs (stripPunct (asciiLower text))).filter
    (fun w => !(stop_words.contains w) && decide (w.length > 2))
  (((sortByCountDesc ((dedupFirst filtered).map
      (fun w => (w, countOcc filtered w)))).take maxKeywords).map (fun p => p.1))

/-- `extract_keywords` (text_analysis.py lines 82-113); the embedded
stopword set is the fallback list, which is also what the code uses
whenever the optional NLTK capability is absent or errors. -/
def extract_keywords (text : String) (maxKeywords : Nat) : String :=
  if text.data.all isSpaceChar then ""
  else joinCommaSep (keywordList text maxKeywords)

/-- `extract_text_from_file` (text_analysis.py lines 44-79).  The
filesystem read for `.txt`/`.csv`, the per-page PDF extraction and the
per-paragraph docx extraction are supplied as `Except` outcomes;
`pdfAvail`/`docxAvail` are the optional-decoder flags `PDF_AVAILABLE` /
`DOCX_AVAILABLE`.  Every failure path, unsupported extension, and
missing decoder yields the empty string; the function is total (the
Python body catches every exception). -/
def extract_text_from_file (pdfAvail docxAvail : Bool) (ext : String)
    (readText : Except String String) (pdfPages : Except String (List String))
    (docxParas : Except String (List String)) : String :=
  if ext == ".txt" then
    match readText with
    | .ok t => t
    | .error _ => ""
  else if ext == ".csv" then
    match readText with
    | .ok t => t
    | .error _ => ""
  else if ext == ".pdf" && pdfAvail then
    match pdfPages with
    | .ok pages => String.join (pages.map (fun p => p ++ "\n"))
    | .error _ => ""
  else if ext == ".docx" && docxAvail then
    match docxParas with
    | .ok paras => String.join (paras.map (fun p => p ++ "\n"))
    | .error _ => ""
  else ""

/-- `analyze_csv_file` (text_analysis.py lines 179-212).  `readLines`
is the outcome of reading the first sample lines; `body` abstracts the
structure analysis, summary generation and keyword extraction performed
inside the same `try` block.  An exception anywhere in the block is
caught and turned into empty keywords and the summary
`"Error analyzing CSV file: <message>"` — not an empty summary. -/
def analyze_csv_file (readLines : Except String (List String))
    (body : List String → Except String (String × String)) : String × String :=
  match readLines with
  | .error e => ("", "Error analyzing CSV file: " ++ e)
  | .ok lines =>
    if lines.isEmpty then ("", "")
    else
      match body lines with
      | .ok r => r
      | .error e => ("", "Error analyzing CSV file: " ++ e)

/-- The non-CSV path of `analyze_text_file` (text_analysis.py lines
494-516): when extraction yields empty text, both keywords and summary
are recorded as the empty string; otherwise keywords come from
`extract_keywords` and the summary from the (abstracted) enhanced
summary generator. -/
def analyze_text_file_nonCsv (text : String) (mkSummary : String → String) : String × String :=
  if text == "" then ("", "")
  else (extract_keywords text 10, mkSummary text)

/-- Consume exactly `n` decimal digits; return the rest on success. -/
def digitsPrefix : Nat → List Char → Option (List Char)
  | 0, l => some l
  | n + 1, c :: cs => if isDigitChar c then digitsPrefix n cs else none
  | _ + 1, [] => none

/-- Consume one expected character. -/
def charPrefix (ch : Char) : List Char → Option (List Char)
  | c :: cs => if c = ch then some cs else none
  | [] => none

/-- `re.match(r'^-?\d+\.?\d*$', value)` (text_analysis.py line 288):
optional minus, one or more digits, optional dot, any digits, end. -/
def numericRe (s : String) : Bool :=
  let l := match s.data with
    | '-' :: rest => rest
    | l => l
  let ds := l.takeWhile isDigitChar
  if ds.isEmpty then false
  else
    match l.drop ds.length with
    | [] => true
    | '.' :: rest2 => rest2.all isDigitChar
    | _ => false

/-- `re.match(r'\d{4}-\d{2}-\d{2}|\d{2}/\d{2}/\d{4}|\d{2}-\d{2}-\d{4}', value)`
(text_analysis.py line 297): the value starts with one of the three
date shapes (no end anchor). -/
def dateRe (s : String) : Bool :=
  (((((digitsPrefix 4 s.data).bind (charPrefix '-')).bind
      (digitsPrefix 2)).bind (charPrefix '-')).bind (digitsPrefix 2)).isSome ||
  (((((digitsPrefix 2 s.data).bind (charPrefix '/')).bind
      (digitsPrefix 2)).bind (charPrefix '/')).bind (digitsPrefix 4)).isSome ||
  (((((digitsPrefix 2 s.data).bind (charPrefix '-')).bind
      (digitsPrefix 2)).bind (charPrefix '-')).bind (digitsPrefix 4)).isSome

/-- Characters of the regex class `[a-zA-Z0-9._%+-]` (email local part). -/
def isEmailLocalChar (c : Char) : Bool :=
  isAlphaChar c || isDigitChar c || c == '.' || c == '_' || c == '%' || c == '+' || c == '-'

/-- Characters of the regex class `[a-zA-Z0-9.-]` (email domain part). -/
def isEmailDomChar (c : Char) : Bool :=
  isAlphaChar c || isDigitChar c || c == '.' || c == '-'

/-- `re.match(r'^[a-zA-Z0-9._%+-]+@[a-zA-Z0-9.-]+\.[a-zA-Z]{2,}$', value)`
(text_analysis.py lines 302 and 833): non-empty local part, `@`,
non-empty domain, a dot, and an alphabetic top-level domain of length
at least 2 running to the end; only the last dot can start an
all-alphabetic tail, so splitting there is equivalent to the regex's
backtracking. -/
def emailRe (s : String) : Bool :=
  let localPart := s.data.takeWhile (fun c => c != '@')
  match s.data.drop localPart.length with
  | '@' :: domAll =>
    let tldRev := domAll.reverse.takeWhile (fun c => c != '.')
    (match domAll.reverse.drop tldRev.length with
     | '.' :: domRev =>
       !localPart.isEmpty && localPart.all isEmailLocalChar &&
       decide (2 ≤ tldRev.length) && tldRev.all isAlphaChar &&
       !domRev.isEmpty && domRev.all isEmailDomChar
     | _ => false)
  | _ => false

/-- `re.match(r'[\+]?[1-9]?[0-9]{7,15}$', re.sub(r'[^\d+]', '', value))`
(text_analysis.py lines 307 and 838): strip everything but digits and
`+`, then an optional leading `+`, an optional non-zero digit and 7 to
15 digits must cover the whole remainder; that is, after the optional
`+` the remainder is all digits, of length 7 to 15, or of length 16
starting with a non-zero digit. -/
def phoneRe (s : String) : Bool :=
  let cleaned := s.data.filter (fun c => isDigitChar c || c == '+')
  let t := match cleaned with
    | '+' :: r => r
    | r => r
  t.all isDigitChar &&
    ((decide (7 ≤ t.length) && decide (t.length ≤ 15)) ||
     (decide (t.length = 16) &&
       match t with
       | c :: _ => c != '0'
       | [] => false))

/-- `re.match(r'\d{3}-\d{2}-\d{4}', value)` (text_analysis.py line
843): the value starts with an SSN shape (no end anchor). -/
def ssnStartRe (s : String) : Bool :=
  (((((digitsPrefix 3 s.data).bind (charPrefix '-')).bind
      (digitsPrefix 2)).bind (charPrefix '-')).bind (digitsPrefix 4)).isSome

/-- One optional separator of the class `[\s-]`. -/
def sepOpt (l : List Char) : List Char :=
  match l with
  | c :: cs => if isSpaceChar c || c == '-' then cs else l
  | [] => l

/-- `re.match(r'\d{4}[\s-]?\d{4}[\s-]?\d{4}[\s-]?\d{4}', value)`
(text_analysis.py line 848): a credit-card shape prefix; consuming each
optional separator greedily is equivalent because a separator character
can never satisfy the following `\d{4}`. -/
def ccStartRe (s : String) : Bool :=
  (((((digitsPrefix 4 s.data).map sepOpt).bind (digitsPrefix 4)).map sepOpt).bind
      (digitsPrefix 4) |>.map sepOpt |>.bind (digitsPrefix 4)).isSome

/-- `re.match(r'^[A-Z][a-z]+\s+[A-Z][a-z]+$', value)` (text_analysis.py
line 853): two capitalized words separated by whitespace; the character
classes are disjoint, so greedy consumption is exact. -/
def nameShapeRe (s : String) : Bool :=
  match s.data with
  | c :: rest =>
    if isUpperChar c then
      let lows := rest.takeWhile isLowerChar
      if lows.isEmpty then false
      else
        let rest2 := rest.drop lows.length
        let sps := rest2.takeWhile isSpaceChar
        if sps.isEmpty then false
        else
          match rest2.drop sps.length with
          | c2 :: rest3 =>
            if isUpperChar c2 then
              let lows2 := rest3.takeWhile isLowerChar
              !lows2.isEmpty && (rest3.drop lows2.length).isEmpty
            else false
          | [] => false
    else false
  | [] => false

/-- Substring occurrence at some suffix start. -/
def containsSubAux (sub : List Char) : List Char → Bool
  | [] => sub.isEmpty
  | c :: cs => sub.isPrefixOf (c :: cs) || containsSubAux sub cs

/-- Python `sub in s` substring test. -/
def containsSub (s sub : String) : Bool := containsSubAux sub.data s.data

/-- The money-vocabulary column names of `detect_data_type`
(text_analysis.py line 289). -/
def MONEY_COLS : List String :=
  ["price", "amount", "cost", "total", "sum", "value", "salary", "income"]

/-- The id-column names of `detect_data_type` (text_analysis.py line
312). -/
def ID_COLS : List String := ["id", "customer_id", "user_id", "order_id", "product_id"]

/-- `detect_data_type` (text_analysis.py lines 278-318), reduced to the
data type it assigns to the column for one sample value; `none` models
the early return on an empty value (no assignment). -/
def detect_data_type (columnName value : String) : Option String :=
  if value == "" then none
  else
    some
      (if numericRe value then
        if MONEY_COLS.contains (asciiLower columnName) then "currency" else "numeric"
      else if dateRe value then "date"
      else if emailRe value then "email"
      else if phoneRe value then "phone"
      else if ID_COLS.contains (asciiLower columnName) then "id"
      else "text")

/-- The PII column-name vocabulary of `get_pii_columns`
(text_analysis.py lines 781-792). -/
def PII_PATTERNS : List String :=
  ["customer_name", "client_name", "user_name", "first_name", "last_name", "full_name",
   "email", "email_address", "e_mail",
   "phone", "phone_number", "telephone", "mobile", "cell",
   "address", "street_address", "home_address", "billing_address", "shipping_address",
   "ssn", "social_security", "tax_id", "national_id",
   "credit_card", "card_number", "account_number",
   "dob", "date_of_birth", "birth_date", "age",
   "passport", "license", "drivers_license",
   "ip_address", "mac_address",
   "username", "login", "user_id"]

/-- The additional generic PII pattern (text_analysis.py lines
795-797). -/
def ADDITIONAL_PII_PATTERNS : List String := ["name"]

/-- The non-PII exclusion vocabulary (text_analysis.py lines 800-805);
note that it contains `"rep"` and `"sales_rep"`. -/
def NON_PII_PATTERNS : List String :=
  ["product_name", "item_name", "service_name", "category_name", "product",
   "purchase_date", "order_date", "created_date", "updated_date", "date",
   "region", "location", "city", "state", "country",
   "status", "type", "category", "description", "rep", "sales_rep"]

/-- The person-suggesting column names of the name-shape check
(text_analysis.py line 853). -/
def PERSON_NAME_COLS : List String :=
  ["customer_name", "client_name", "user_name", "first_name", "last_name",
   "full_name", "sales_rep", "contact_person"]

/-- The per-sample-value PII test of `get_pii_columns` (text_analysis.py
lines 828-854): empty values are skipped; email, phone, SSN and
credit-card shapes always count; the `Firstname Lastname` shape counts
only when the column name contains a person-suggesting pattern. -/
def pii_value_hit (colLower v : String) : Bool :=
  v != "" &&
    (emailRe v || phoneRe v || ssnStartRe v || ccStartRe v ||
      (nameShapeRe v && PERSON_NAME_COLS.any (fun p => containsSub colLower p)))

/-- `get_pii_columns` (text_analysis.py lines 774-857): a column is
flagged when, in order, (1) its lowercased name contains no non-PII
exclusion pattern — the exclusion short-circuits everything after it —
and (2) its name contains a PII vocabulary pattern, or (3) the generic
`"name"` pattern, or (4) some collected sample value matches a PII
value shape.  The Python function ends with `list(set(...))`, which
only deduplicates (and no header is appended twice), so the
membership-relevant list is returned. -/
def get_pii_columns (headers : List String) (samples : String → List String) : List String :=
  headers.filter (fun col =>
    let cl := asciiLower col
    if NON_PII_PATTERNS.any (fun p => containsSub cl p) then false
    else if PII_PATTERNS.any (fun p => containsSub cl p) then true
    else if ADDITIONAL_PII_PATTERNS.any (fun p => containsSub cl p) &&
        !(NON_PII_PATTERNS.any (fun p => containsSub cl p)) then true
    else (samples col).any (fun v => pii_value_hit cl v))

theorem toNat_ofNat_small (n : Nat) (h : n < 55296) : (Char.ofNat n).toNat = n := by
  have hv : n.isValidChar := Or.inl h
  simp [Char.ofNat, dif_pos hv, Char.ofNatAux, Char.toNat, UInt32.toNat, BitVec.toNat_ofNatLt]

theorem lowerChar_lowerChar (c : Char) : lowerChar (lowerChar c) = lowerChar c := by
  unfold lowerChar
  split
  · rename_i h
    have h2 : (Char.ofNat (c.toNat + 32)).toNat = c.toNat + 32 :=
      toNat_ofNat_small _ (by omega)
    rw [if_neg (by omega)]
  · rfl

theorem asciiLower_asciiLower (s : String) : asciiLower (asciiLower s) = asciiLower s := by
  unfold asciiLower
  simp [List.map_map, Function.comp_def, lowerChar_lowerChar]

theorem asciiLower_ne_empty (s : String) (h : s.data ≠ []) : asciiLower s ≠ "" := by
  unfold asciiLower
  intro hc
  have : (s.data.map lowerChar) = ([] : List Char) := congrArg String.data hc
  simp at this
  exact h this

theorem toNat_digitChar (n : Nat) : (digitChar n).toNat = 48 + n % 10 := by
  unfold digitChar
  exact toNat_ofNat_small _ (by omega)

theorem parseDigit_digitChar (n : Nat) (h : n < 10) : parseDigit (digitChar n) = n := by
  unfold parseDigit
  rw [toNat_digitChar]
  omega

theorem isDigitChar_digitChar (n : Nat) : isDigitChar (digitChar n) = true := by
  unfold isDigitChar
  rw [toNat_digitChar]
  simp
  omega

theorem digitsAux_ne_nil (fuel n : Nat) : digitsAux (fuel + 1) n ≠ [] := by
  unfold digitsAux
  split <;> simp

theorem digitsAux_all_digits (fuel n : Nat) :
    ∀ c ∈ digitsAux fuel n, isDigitChar c = true := by
  induction fuel generalizing n with
  | zero => intro c hc; simp [digitsAux] at hc
  | succ f ih =>
    intro c hc
    unfold digitsAux at hc
    split at hc
    · simp at hc
      subst hc
      exact isDigitChar_digitChar n
    · rw [List.mem_append] at hc
      rcases hc with hc | hc
      · exact ih _ c hc
      · simp at hc
        subst hc
        exact isDigitChar_digitChar (n % 10)

theorem parseNatList_append_singleton (l : List Char) (c : Char) :
    parseNatList (l ++ [c]) = parseNatList l * 10 + parseDigit c := by
  unfold parseNatList
  rw [List.foldl_append]
  rfl

theorem parseNatList_digitsAux (fuel n : Nat) (h : n < 10 ^ fuel) :
    parseNatList (digitsAux fuel n) = n := by
  induction fuel generalizing n with
  | zero =>
    have hn : n = 0 := by simpa using h
    subst hn
    rfl
  | succ f ih =>
    unfold digitsAux
    split
    · rename_i h10
      show parseNatList [digitChar n] = n
      unfold parseNatList
      simp [List.foldl]
      exact parseDigit_digitChar n h10
    · rename_i h10
      rw [parseNatList_append_singleton]
      have hdiv : n / 10 < 10 ^ f := by
        rw [Nat.div_lt_iff_lt_mul (by omega)]
        calc n < 10 ^ (f + 1) := h
        _ = 10 ^ f * 10 := by rw [Nat.pow_succ]
      rw [ih _ hdiv, parseDigit_digitChar _ (Nat.mod_lt _ (by omega))]
      have := Nat.div_add_mod n 10
      omega

theorem parseNatList_natStr (n : Nat) : parseNatList (natStr n).data = n := by
  unfold natStr
  exact parseNatList_digitsAux (n + 1) n
    (lt_of_lt_of_le (Nat.lt_pow_self (by omega) n) (Nat.pow_le_pow_right (by omega) (Nat.le_succ n)))

theorem natStr_injective : Function.Injective natStr := by
  intro a b h
  have := congrArg (fun s => parseNatList (String.data s)) h
  simpa [parseNatList_natStr] using this

theorem natStr_ne_nil (n : Nat) : (natStr n).data ≠ [] := digitsAux_ne_nil n n

theorem natStr_all_digits (n : Nat) : ∀ c ∈ (natStr n).data, isDigitChar c = true :=
  digitsAux_all_digits (n + 1) n

theorem lastDotPos_eq_none (l : List Char) : lastDotPos l = none ↔ '.' ∉ l := by
  induction l with
  | nil => simp [lastDotPos]
  | cons c cs ih =>
    unfold lastDotPos
    rcases h : lastDotPos cs with _ | i
    · have hcs : '.' ∉ cs := ih.mp h
      by_cases hc : c = '.'
      · subst hc
        simp
      · have hne : ¬('.' = c) := fun he => hc he.symm
        simp [hc, hcs, hne]
    · have hmem : '.' ∈ cs := by
        by_contra hn
        rw [ih.mpr hn] at h
        cases h
      simp [hmem]

theorem lastDotPos_append_of_some (xs ys : List Char) (j : Nat)
    (h : lastDotPos ys = some j) : lastDotPos (xs ++ ys) = some (xs.length + j) := by
  induction xs with
  | nil => simpa using h
  | cons c cs ih =>
    show lastDotPos (c :: (cs ++ ys)) = some ((c :: cs).length + j)
    unfold lastDotPos
    rw [ih]
    simp
    omega

theorem lastDotPos_append_of_none (xs ys : List Char)
    (h : lastDotPos ys = none) : lastDotPos (xs ++ ys) = lastDotPos xs := by
  induction xs with
  | nil => simpa using h
  | cons c cs ih =>
    show lastDotPos (c :: (cs ++ ys)) = lastDotPos (c :: cs)
    unfold lastDotPos
    rw [ih]

theorem lastDotPos_cons_dot_of_no_dot (t : List Char) (h : '.' ∉ t) :
    lastDotPos ('.' :: t) = some 0 := by
  unfold lastDotPos
  rw [(lastDotPos_eq_none t).mpr h]
  simp

theorem lastDotPos_drop (l : List Char) (i : Nat) (h : lastDotPos l = some i) :
    ∃ t, l.drop i = '.' :: t ∧ '.' ∉ t := by
  induction l generalizing i with
  | nil => simp [lastDotPos] at h
  | cons c cs ih =>
    unfold lastDotPos at h
    rcases hcs : lastDotPos cs with _ | j
    · rw [hcs] at h
      by_cases hc : c = '.'
      · rw [if_pos hc] at h
        injection h with h0
        subst h0
        subst hc
        exact ⟨cs, by simp, (lastDotPos_eq_none cs).mp hcs⟩
      · rw [if_neg hc] at h
        cases h
    · rw [hcs] at h
      injection h with h1
      subst h1
      simpa using ih j hcs

/-- Structure of `splitext`: either there is no extension and the root is
the whole name, or the name decomposes as root ++ extension where the
extension is a dot followed by a dot-free tail. -/
theorem splitext_structure (p : String) :
    ((splitext p).2 = "" ∧ (splitext p).1 = p) ∨
    (∃ t, ((splitext p).2).data = '.' :: t ∧ '.' ∉ t ∧
      ((splitext p).1).data ++ ((splitext p).2).data = p.data) := by
  unfold splitext
  split
  · exact Or.inl ⟨rfl, rfl⟩
  · rename_i i hsome
    split
    · exact Or.inl ⟨rfl, rfl⟩
    · obtain ⟨t, ht, htfree⟩ := lastDotPos_drop p.data i hsome
      exact Or.inr ⟨t, by simpa using ht, htfree, by simp⟩

theorem pathJoin_inj_right (dir a b : String) (h : pathJoin dir a = pathJoin dir b) : a = b := by
  unfold pathJoin at h
  have h2 := congrArg String.data h
  simp only [String.data_append] at h2
  exact String.ext (List.append_cancel_left h2)

theorem candName_inj (stem ext : String) (a b : Nat)
    (h : candName stem ext a = candName stem ext b) : a = b := by
  unfold candName at h
  have h2 := congrArg String.data h
  simp only [String.data_append] at h2
  have h3 := List.append_cancel_right h2
  have h4 := List.append_cancel_left h3
  exact natStr_injective (String.ext h4)

theorem candName_data (stem ext : String) (k : Nat) :
    (candName stem ext k).data = stem.data ++ '_' :: ((natStr k).data ++ ext.data) := by
  unfold candName
  simp

theorem probeName_sound (fs : List String) (dir stem ext : String) (fuel k : Nat)
    (nm : String) (j : Nat) (h : probeName fs dir stem ext fuel k = some (nm, j)) :
    k ≤ j ∧ nm = candName stem ext j ∧ fs.contains (pathJoin dir nm) = false ∧
      ∀ i, k ≤ i → i < j → fs.contains (pathJoin dir (candName stem ext i)) = true := by
  induction fuel generalizing k with
  | zero => simp [probeName] at h
  | succ f ih =>
    unfold probeName at h
    split at h
    · rename_i hc
      obtain ⟨h1, h2, h3, h4⟩ := ih (k + 1) h
      refine ⟨by omega, h2, h3, ?_⟩
      intro i hki hij
      rcases eq_or_lt_of_le hki with he | hlt
      · subst he
        exact hc
      · exact h4 i (by omega) hij
    · rename_i hc
      simp at h
      obtain ⟨h1, h2⟩ := h
      subst h2
      refine ⟨le_refl k, h1.symm ▸ rfl, ?_, ?_⟩
      · rw [← h1]
        simpa using hc
      · intro i h1i h2i
        omega

theorem probeName_isSome (fs : List String) (dir stem ext : String) (fuel k : Nat)
    (h : ∃ j, k ≤ j ∧ j < k + fuel ∧
      fs.contains (pathJoin dir (candName stem ext j)) = false) :
    (probeName fs dir stem ext fuel k).isSome = true := by
  induction fuel generalizing k with
  | zero =>
    obtain ⟨j, h1, h2, _⟩ := h
    omega
  | succ f ih =>
    unfold probeName
    split
    · rename_i hc
      apply ih
      obtain ⟨j, h1, h2, h3⟩ := h
      refine ⟨j, ?_, by omega, h3⟩
      rcases eq_or_lt_of_le h1 with he | hlt
      · subst he
        rw [hc] at h3
        cases h3
      · omega
    · simp

theorem probeName_pigeonhole (fs : List String) (dir stem ext : String) :
    ∃ j, 1 ≤ j ∧ j < 1 + (fs.length + 1) ∧
      fs.contains (pathJoin dir (candName stem ext j)) = false := by
  by_contra hno
  push_neg at hno
  have hall : ∀ j, 1 ≤ j → j ≤ fs.length + 1 →
      pathJoin dir (candName stem ext j) ∈ fs := by
    intro j h1 h2
    have := hno j h1 (by omega)
    have hc : fs.contains (pathJoin dir (candName stem ext j)) = true := by
      simpa using this
    simpa using hc
  have hmaps : ∀ j ∈ Finset.Icc 1 (fs.length + 1),
      pathJoin dir (candName stem ext j) ∈ fs.toFinset := by
    intro j hj
    rw [Finset.mem_Icc] at hj
    rw [List.mem_toFinset]
    exact hall j hj.1 hj.2
  have hinj : Set.InjOn (fun j => pathJoin dir (candName stem ext j))
      (Finset.Icc 1 (fs.length + 1)) := by
    intro a _ b _ hab
    exact candName_inj stem ext a b (pathJoin_inj_right dir _ _ hab)
  have hcard := Finset.card_le_card_of_injOn _ hmaps hinj
  rw [Nat.card_Icc] at hcard
  have hlen := fs.toFinset_card_le
  omega

theorem takeWhile_append_stop (p : Char → Bool) (as : List Char) (b : Char) (bs : List Char)
    (ha : ∀ c ∈ as, p c = true) (hb : p b = false) :
    (as ++ b :: bs).takeWhile p = as := by
  induction as with
  | nil => simp [List.takeWhile, hb]
  | cons a as ih =>
    have hpa : p a = true := ha a (by simp)
    simp only [List.cons_append, List.takeWhile_cons, hpa, if_true]
    rw [ih (fun c hc => ha c (by simp [hc]))]

theorem counterOfStem_underscore_digits (xs ds : List Char)
    (hds : ∀ c ∈ ds, isDigitChar c = true) (hne : ds ≠ []) :
    counterOfStem ⟨xs ++ '_' :: ds⟩ = parseNatList ds := by
  unfold counterOfStem
  have hrev : (xs ++ '_' :: ds).reverse = ds.reverse ++ '_' :: xs.reverse := by
    simp
  simp only [hrev]
  have hdigits : ∀ c ∈ ds.reverse, isDigitChar c = true := by
    intro c hc
    exact hds c (List.mem_reverse.mp hc)
  have hu : isDigitChar '_' = false := by decide
  rw [takeWhile_append_stop isDigitChar ds.reverse '_' xs.reverse hdigits hu]
  rw [List.drop_left]
  have hrne : ds.reverse ≠ [] := fun h => hne (by simpa using congrArg List.reverse h)
  simp [hrne]

theorem isDigitChar_ne_dot (c : Char) (h : isDigitChar c = true) : c ≠ '.' := by
  unfold isDigitChar at h
  intro he
  subst he
  simp at h

theorem pathStem_take (name : String) (i : Nat) (h : lastDotPos name.data = some i)
    (h1 : 0 < i) (h2 : i < name.data.length - 1) :
    pathStem name = ⟨name.data.take i⟩ := by
  unfold pathStem
  split
  · rename_i hnone
    rw [h] at hnone
    cases hnone
  · rename_i j hj
    rw [h] at hj
    injection hj with hj
    subst hj
    rw [if_pos ⟨h1, h2⟩]

theorem pathStem_self_of_none (name : String) (h : lastDotPos name.data = none) :
    pathStem name = name := by
  unfold pathStem
  split
  · rfl
  · rename_i j hj
    rw [h] at hj
    cases hj

theorem pathStem_cand_ext (stem ext : String) (k : Nat) (t : List Char)
    (hext : ext.data = '.' :: t) (htne : t ≠ []) (hfree : '.' ∉ t) :
    pathStem (candName stem ext k) = ⟨stem.data ++ '_' :: (natStr k).data⟩ := by
  have hdata : (candName stem ext k).data =
      (stem.data ++ '_' :: (natStr k).data) ++ '.' :: t := by
    rw [candName_data, hext]
    simp
  have hpos : lastDotPos (candName stem ext k).data =
      some ((stem.data ++ '_' :: (natStr k).data).length + 0) := by
    rw [hdata]
    exact lastDotPos_append_of_some _ _ 0 (lastDotPos_cons_dot_of_no_dot t hfree)
  have htlen : 0 < t.length := List.length_pos.mpr htne
  rw [pathStem_take _ _ hpos (by simp) (by rw [hdata]; simp; omega)]
  congr 1
  rw [hdata]
  simpa using List.take_left (stem.data ++ '_' :: (natStr k).data) ('.' :: t)

theorem pathStem_cand_noext (stem : String) (k : Nat) (hfree : '.' ∉ stem.data) :
    pathStem (candName stem "" k) = candName stem "" k := by
  apply pathStem_self_of_none
  apply (lastDotPos_eq_none _).mpr
  rw [candName_data]
  intro hmem
  rw [List.mem_append] at hmem
  rcases hmem with hmem | hmem
  · exact hfree hmem
  · rw [List.mem_cons] at hmem
    rcases hmem with hmem | hmem
    · exact absurd hmem (by decide)
    · rw [List.mem_append] at hmem
      rcases hmem with hmem | hmem
      · exact isDigitChar_ne_dot _ (natStr_all_digits k _ hmem) rfl
      · simp at hmem

theorem counterOfStem_cand (stem : String) (k : Nat) :
    counterOfStem ⟨stem.data ++ '_' :: (natStr k).data⟩ = k := by
  rw [counterOfStem_underscore_digits stem.data (natStr k).data (natStr_all_digits k) (natStr_ne_nil k)]
  exact parseNatList_natStr k

theorem splitext_recompose (p : String) :
    ((splitext p).1).data ++ ((splitext p).2).data = p.data := by
  rcases splitext_structure p with ⟨h1, h2⟩ | ⟨t, _, _, h⟩
  · rw [h1, h2]
    simp
  · exact h

theorem splitext_empty_ext (p : String) (h : (splitext p).2 = "") : (splitext p).1 = p := by
  rcases splitext_structure p with ⟨_, h2⟩ | ⟨t, ht, _, _⟩
  · exact h2
  · rw [h] at ht
    cases ht

theorem candName_ne_orig (fname : String) (k : Nat) :
    candName (splitext fname).1 (splitext fname).2 k ≠ fname := by
  intro he
  have hlen := congrArg (fun s => (String.data s).length) he
  simp only [candName_data] at hlen
  have hrec := congrArg List.length (splitext_recompose fname)
  simp at hlen hrec
  have hne : 0 < (natStr k).data.length := List.length_pos.mpr (natStr_ne_nil k)
  omega

theorem generate_unique_free (fs : List String) (dir fname : String)
    (h : fs.contains (pathJoin dir fname) = false) :
    generate_unique_filename fs dir fname = (pathJoin dir fname, fname) := by
  unfold generate_unique_filename
  rw [h]
  simp

theorem generate_unique_collision (fs : List String) (dir fname : String)
    (h : fs.contains (pathJoin dir fname) = true) :
    ∃ k, 1 ≤ k ∧
      generate_unique_filename fs dir fname =
        (pathJoin dir (candName (splitext fname).1 (splitext fname).2 k),
         candName (splitext fname).1 (splitext fname).2 k) ∧
      fs.contains (pathJoin dir (candName (splitext fname).1 (splitext fname).2 k)) = false ∧
      ∀ i, 1 ≤ i → i < k →
        fs.contains (pathJoin dir (candName (splitext fname).1 (splitext fname).2 i)) = true := by
  have hsome := probeName_isSome fs dir (splitext fname).1 (splitext fname).2 (fs.length + 1) 1
    (probeName_pigeonhole fs dir _ _)
  obtain ⟨⟨nm, j⟩, hp⟩ := Option.isSome_iff_exists.mp hsome
  obtain ⟨h1, h2, h3, h4⟩ := probeName_sound fs dir _ _ _ _ nm j hp
  subst h2
  refine ⟨j, h1, ?_, h3, fun i ha hb => h4 i ha hb⟩
  unfold generate_unique_filename
  rw [h, hp]
  simp

theorem cand_empty_ext_eq (stem : String) (k : Nat) :
    candName stem "" k = (⟨stem.data ++ '_' :: (natStr k).data⟩ : String) := by
  apply String.ext
  rw [candName_data]
  simp

/-- C1 (amended).  Collision-safe placement over a finite filesystem
`fs`: a free `dir/fname` is returned unchanged with
`is_duplicate = false` and counter 0; a colliding `fname` whose
extension is not a bare dot (and, when extensionless, contains no dot)
is suffixed with the least free counter `k ≥ 1`, marked duplicate, with
`duplicate_counter = k`; and in all cases the returned destination is
not an existing path. -/
theorem c1_collision_safe_placement (fs : List String) (dir fname : String) :
    (fs.contains (pathJoin dir fname) = false →
      place fs dir fname = (pathJoin dir fname, false, 0)) ∧
    (fs.contains (pathJoin dir fname) = true →
      (splitext fname).2 ≠ "." →
      ((splitext fname).2 = "" → '.' ∉ fname.data) →
      ∃ k, 1 ≤ k ∧
        place fs dir fname =
          (pathJoin dir (candName (splitext fname).1 (splitext fname).2 k), true, k) ∧
        fs.contains (pathJoin dir (candName (splitext fname).1 (splitext fname).2 k)) = false ∧
        ∀ i, 1 ≤ i → i < k →
          fs.contains (pathJoin dir (candName (splitext fname).1 (splitext fname).2 i)) = true) ∧
    fs.contains (place fs dir fname).1 = false := by
  refine ⟨?_, ?_, ?_⟩
  · intro h
    unfold place
    rw [generate_unique_free fs dir fname h]
    simp
  · intro h hdot hnoext
    obtain ⟨k, hk1, hgen, hfree, hmin⟩ := generate_unique_collision fs dir fname h
    refine ⟨k, hk1, ?_, hfree, hmin⟩
    have hdup : (candName (splitext fname).1 (splitext fname).2 k != fname) = true := by
      simp only [bne_iff_ne, ne_eq]
      simp [candName_ne_orig fname k]
    unfold place
    rw [hgen]
    simp only [hdup, if_true]
    have hcounter :
        counterOfStem (pathStem (candName (splitext fname).1 (splitext fname).2 k)) = k := by
      rcases splitext_structure fname with ⟨he, hs⟩ | ⟨t, ht, htf, _⟩
      · have hdotfree : '.' ∉ ((splitext fname).1).data := by
          rw [hs]
          exact hnoext he
        rw [he, pathStem_cand_noext _ k hdotfree, cand_empty_ext_eq]
        exact counterOfStem_cand _ k
      · have htne : t ≠ [] := by
          intro hteq
          subst hteq
          exact hdot (String.ext (by simpa using ht))
        rw [pathStem_cand_ext _ _ k t ht htne htf]
        exact counterOfStem_cand _ k
    rw [hcounter]
  · rcases Bool.eq_false_or_eq_true (fs.contains (pathJoin dir fname)) with hc | hc
    · obtain ⟨k, _, hgen, hfree, _⟩ := generate_unique_collision fs dir fname hc
      unfold place
      rw [hgen]
      exact hfree
    · unfold place
      rw [generate_unique_free fs dir fname hc]
      exact hc

/-- C1 counterexample.  For the colliding filename `"a."` (extension
`"."` under `os.path.splitext`), the placer returns the k = 1 candidate
`"d/a_1."` and marks it a duplicate, but the recorded
`duplicate_counter` is 0, not 1: the generated name ends in a dot, so
`Path(...).stem` keeps the whole name and `re.search(r'_(\d+)$', stem)`
finds no match.  This falsifies the claim's unconditional
`duplicate_counter = k`. -/
theorem c1_counterexample :
    place ["d/a."] "d" "a." = ("d/a_1.", true, 0) ∧ (0 : Nat) ≠ 1 := by
  constructor
  · decide
  · decide

/-- C1 witness: the claim's own example.  `dir/a.txt` exists and
`dir/a_1.txt` does not; the placer returns `dir/a_1.txt` with
`is_duplicate = true` and counter 1. -/
theorem c1_witness :
    (∃ k, 1 ≤ k ∧
      place ["d/a.txt"] "d" "a.txt" =
        (pathJoin "d" (candName (splitext "a.txt").1 (splitext "a.txt").2 k), true, k) ∧
      List.contains ["d/a.txt"]
        (pathJoin "d" (candName (splitext "a.txt").1 (splitext "a.txt").2 k)) = false ∧
      ∀ i, 1 ≤ i → i < k →
        List.contains ["d/a.txt"]
          (pathJoin "d" (candName (splitext "a.txt").1 (splitext "a.txt").2 i)) = true) ∧
    place ["d/a.txt"] "d" "a.txt" = ("d/a_1.txt", true, 1) :=
  ⟨(c1_collision_safe_placement ["d/a.txt"] "d" "a.txt").2.1 (by decide) (by decide) (by decide),
   by decide⟩

theorem leadingAlphaDelim_some_shape (s p : String) (h : leadingAlphaDelim s = some p) :
    p.data = s.data.takeWhile isAlphaChar ∧ p.data ≠ [] := by
  unfold leadingAlphaDelim at h
  split at h
  · cases h
  · rename_i hne
    split at h
    · split at h
      · injection h with h
        subst h
        refine ⟨rfl, ?_⟩
        intro hnil
        rw [List.isEmpty_iff] at hne
        exact hne hnil
      · cases h
    · cases h

/-- C6.  Owner resolution (`FileOrganizer.extract_owner_name`): for any
configured owner list whose entries are non-empty and lowercase, the
result is a non-empty all-lowercase string; a known-owner prefix match
on the lowercased filename is returned as-is and takes precedence over
the leading-letters delimiter pattern; with no owner match the result
is the lowercased leading-letters group before `'_'`/`'-'` when present
and `"unknown"` otherwise. -/
theorem c6_owner_resolution (owners : List String) (filename : String)
    (howners : ∀ o ∈ owners, o.data ≠ [] ∧ asciiLower o = o) :
    (extract_owner_name owners filename ≠ "" ∧
      asciiLower (extract_owner_name owners filename) = extract_owner_name owners filename) ∧
    (∀ o, owners.find? (fun o => startsWithStr (asciiLower filename) o) = some o →
      extract_owner_name owners filename = o) ∧
    (∀ o ∈ owners, startsWithStr (asciiLower filename) o = true →
      extract_owner_name owners filename ∈ owners ∧
      startsWithStr (asciiLower filename) (extract_owner_name owners filename) = true) ∧
    ((∀ o ∈ owners, startsWithStr (asciiLower filename) o = false) →
      extract_owner_name owners filename =
        match leadingAlphaDelim filename with
        | some p => asciiLower p
        | none => "unknown") := by
  refine ⟨?_, ?_, ?_, ?_⟩
  · unfold extract_owner_name
    rcases hfind : owners.find? (fun o => startsWithStr (asciiLower filename) o) with _ | o
    · rcases hlead : leadingAlphaDelim filename with _ | p
      · exact ⟨by decide, by decide⟩
      · obtain ⟨hshape, hne⟩ := leadingAlphaDelim_some_shape filename p hlead
        exact ⟨asciiLower_ne_empty p hne, asciiLower_asciiLower p⟩
    · have hmem := List.mem_of_find?_eq_some hfind
      exact ⟨fun he => (howners o hmem).1 (by simpa using congrArg String.data he),
        (howners o hmem).2⟩
  · intro o hfind
    unfold extract_owner_name
    rw [hfind]
  · intro o hmem hpref
    unfold extract_owner_name
    rcases hfind : owners.find? (fun o => startsWithStr (asciiLower filename) o) with _ | o2
    · rw [List.find?_eq_none] at hfind
      exact absurd hpref (by simpa using hfind o hmem)
    · exact ⟨List.mem_of_find?_eq_some hfind, by simpa using List.find?_some hfind⟩
  · intro hall
    unfold extract_owner_name
    rcases hfind : owners.find? (fun o => startsWithStr (asciiLower filename) o) with _ | o
    · rfl
    · have := List.find?_some hfind
      have hmem := List.mem_of_find?_eq_some hfind
      rw [hall o hmem] at this
      cases this

/-- C6 witness: with the configured `KNOWN_OWNERS` list, the filename
`Rohith_report.pdf` matches the known owner `rohith` (case-insensitive
prefix), which wins over the `Rohith_` delimiter pattern; the result is
non-empty and lowercase. -/
theorem c6_witness :
    (extract_owner_name KNOWN_OWNERS "Rohith_report.pdf" ≠ "" ∧
      asciiLower (extract_owner_name KNOWN_OWNERS "Rohith_report.pdf") =
        extract_owner_name KNOWN_OWNERS "Rohith_report.pdf") ∧
    extract_owner_name KNOWN_OWNERS "Rohith_report.pdf" = "rohith" :=
  ⟨(c6_owner_resolution KNOWN_OWNERS "Rohith_report.pdf" (by decide)).1, by decide⟩

theorem bumpCount_sum (m : List (String × Nat)) (k : String) :
    sumCounts (bumpCount m k) = sumCounts m + 1 := by
  induction m with
  | nil => rfl
  | cons p rest ih =>
    obtain ⟨k2, v⟩ := p
    unfold bumpCount
    by_cases h : k2 == k
    · simp [h, sumCounts]
      omega
    · simp only [h]
      simp [sumCounts] at ih ⊢
      omega

theorem organize_file_ok (outDir : String) (fs : List String) (st : Stats) (f : FileInput)
    (h : fileFailure f = none) :
    (organize_file outDir fs st f).1.errors = st.errors ∧
    (organize_file outDir fs st f).1.total = st.total + 1 ∧
    (organize_file outDir fs st f).1.byType =
      bumpCount st.byType (get_file_type_category f.name) ∧
    (organize_file outDir fs st f).1.byOwner =
      bumpCount st.byOwner (extract_owner_name KNOWN_OWNERS f.name) ∧
    ∃ m, (organize_file outDir fs st f).2.2 = some m ∧
      m.new_path =
        (generate_unique_filename fs
          (pathJoin (pathJoin outDir (get_file_type_category f.name))
            (extract_owner_name KNOWN_OWNERS f.name)) f.name).1 := by
  obtain ⟨fp, fn, ss, mk, mv, cr⟩ := f
  cases ss <;> cases mk <;> cases mv <;> cases cr <;>
    simp [fileFailure] at h ⊢ <;>
    simp [organize_file, apply_ite Stats.errors, apply_ite Stats.total,
      apply_ite Stats.byType, apply_ite Stats.byOwner]

theorem organize_file_err (outDir : String) (fs : List String) (st : Stats) (f : FileInput)
    (e : String) (h : fileFailure f = some e) :
    (organize_file outDir fs st f).1.errors = st.errors ++ [orgError f e] ∧
    (organize_file outDir fs st f).1.total = st.total ∧
    (organize_file outDir fs st f).1.byType = st.byType ∧
    (organize_file outDir fs st f).1.byOwner = st.byOwner ∧
    (organize_file outDir fs st f).2.2 = none := by
  obtain ⟨fp, fn, ss, mk, mv, cr⟩ := f
  cases ss <;> cases mk <;> cases mv <;> cases cr <;>
    simp [fileFailure] at h <;>
    subst h <;>
    simp [organize_file, orgError, apply_ite Stats.errors, apply_ite Stats.total,
      apply_ite Stats.byType, apply_ite Stats.byOwner]

theorem processAll_errors (outDir : String) (files : List FileInput) :
    ∀ fs st, (processAll outDir files fs st).1.errors = st.errors ++ allFailMsgs files := by
  induction files with
  | nil => intro fs st; simp [processAll, allFailMsgs]
  | cons f rest ih =>
    intro fs st
    unfold processAll allFailMsgs
    rcases hf : fileFailure f with _ | e
    · obtain ⟨he, _, _, _, _⟩ := organize_file_ok outDir fs st f hf
      rw [ih, he]
      simp [failMsgList, hf]
    · obtain ⟨he, _, _, _, _⟩ := organize_file_err outDir fs st f e hf
      rw [ih, he]
      simp [failMsgList, hf]

theorem processAll_counts (outDir : String) (files : List FileInput) :
    ∀ fs st,
      (processAll outDir files fs st).1.total = st.total + countOk files ∧
      sumCounts (processAll outDir files fs st).1.byType =
        sumCounts st.byType + countOk files ∧
      sumCounts (processAll outDir files fs st).1.byOwner =
        sumCounts st.byOwner + countOk files := by
  induction files with
  | nil => intro fs st; simp [processAll, countOk]
  | cons f rest ih =>
    intro fs st
    unfold processAll
    rcases hf : fileFailure f with _ | e
    · have hcount : countOk (f :: rest) = countOk rest + 1 := by
        unfold countOk
        simp [List.filter, hf]
      obtain ⟨_, ht, hty, how, _⟩ := organize_file_ok outDir fs st f hf
      obtain ⟨iht, ihty, ihow⟩ :=
        ih (organize_file outDir fs st f).2.1 (organize_file outDir fs st f).1
      rw [hcount]
      refine ⟨?_, ?_, ?_⟩
      · rw [iht, ht]; omega
      · rw [ihty, hty, bumpCount_sum]; omega
      · rw [ihow, how, bumpCount_sum]; omega
    · have hcount : countOk (f :: rest) = countOk rest := by
        unfold countOk
        simp [List.filter, hf]
      obtain ⟨_, ht, hty, how, _⟩ := organize_file_err outDir fs st f e hf
      obtain ⟨iht, ihty, ihow⟩ :=
        ih (organize_file outDir fs st f).2.1 (organize_file outDir fs st f).1
      rw [hcount]
      refine ⟨?_, ?_, ?_⟩
      · rw [iht, ht]
      · rw [ihty, hty]
      · rw [ihow, how]

/-- C4.  Error propagation: `organize_all_files` is a total function
(no per-file failure escapes), the returned `success` flag is true
exactly when the error list is empty, and on a non-empty scan the error
list is precisely the scan error (if any) followed by one descriptive
message per failed file in scan order — later files are still processed
— followed by the finalization failure message (if any). -/
theorem c4_error_propagation (outDir : String) (scan : ScanResult) (fs0 : List String)
    (finalizeErr : Option String) :
    ((organize_all_files outDir scan fs0 finalizeErr).2.success = true ↔
      (organize_all_files outDir scan fs0 finalizeErr).2.errors = []) ∧
    (scan.files ≠ [] →
      (organize_all_files outDir scan fs0 finalizeErr).2.errors =
        (initialStats scan.scanErr).errors ++ allFailMsgs scan.files ++
          (match finalizeErr with
           | some e => ["Processing failed: " ++ e]
           | none => [])) := by
  obtain ⟨files, scanErr⟩ := scan
  cases files with
  | nil =>
    refine ⟨?_, fun h => absurd rfl h⟩
    cases finalizeErr <;> simp [organize_all_files, get_results, List.isEmpty_iff]
  | cons f rest =>
    cases finalizeErr with
    | none =>
      refine ⟨?_, fun _ => ?_⟩
      · simp [organize_all_files, get_results, List.isEmpty_iff]
      · simp only [organize_all_files, List.isEmpty_cons, Bool.false_eq_true, if_false,
          get_results]
        rw [processAll_errors]
        simp
    | some e =>
      refine ⟨?_, fun _ => ?_⟩
      · simp [organize_all_files, get_results, List.isEmpty_iff]
      · simp only [organize_all_files, List.isEmpty_cons, Bool.false_eq_true, if_false,
          get_results]
        rw [processAll_errors]

/-- C4 witness: a run over one failing file (`stat` raises "boom") and
one succeeding file accumulates exactly the one descriptive message,
keeps processing, and reports `success = false`. -/
theorem c4_witness :
    ((organize_all_files "out"
        ⟨[⟨"in/x.png", "x.png", ⟨Except.error "boom", Except.ok (), Except.ok (), Except.ok ()⟩⟩,
          ⟨"in/y.txt", "y.txt", ⟨Except.ok 5, Except.ok (), Except.ok (), Except.ok ()⟩⟩], none⟩
        [] none).2.success = true ↔
      (organize_all_files "out"
        ⟨[⟨"in/x.png", "x.png", ⟨Except.error "boom", Except.ok (), Except.ok (), Except.ok ()⟩⟩,
          ⟨"in/y.txt", "y.txt", ⟨Except.ok 5, Except.ok (), Except.ok (), Except.ok ()⟩⟩], none⟩
        [] none).2.errors = []) ∧
    (organize_all_files "out"
        ⟨[⟨"in/x.png", "x.png", ⟨Except.error "boom", Except.ok (), Except.ok (), Except.ok ()⟩⟩,
          ⟨"in/y.txt", "y.txt", ⟨Except.ok 5, Except.ok (), Except.ok (), Except.ok ()⟩⟩], none⟩
        [] none).2.errors =
      (initialStats none).errors ++
        allFailMsgs
          [⟨"in/x.png", "x.png", ⟨Except.error "boom", Except.ok (), Except.ok (), Except.ok ()⟩⟩,
           ⟨"in/y.txt", "y.txt", ⟨Except.ok 5, Except.ok (), Except.ok (), Except.ok ()⟩⟩] ++ [] :=
  ⟨(c4_error_propagation "out"
      ⟨[⟨"in/x.png", "x.png", ⟨Except.error "boom", Except.ok (), Except.ok (), Except.ok ()⟩⟩,
        ⟨"in/y.txt", "y.txt", ⟨Except.ok 5, Except.ok (), Except.ok (), Except.ok ()⟩⟩], none⟩
      [] none).1,
   (c4_error_propagation "out"
      ⟨[⟨"in/x.png", "x.png", ⟨Except.error "boom", Except.ok (), Except.ok (), Except.ok ()⟩⟩,
        ⟨"in/y.txt", "y.txt", ⟨Except.ok 5, Except.ok (), Except.ok (), Except.ok ()⟩⟩], none⟩
      [] none).2 (List.cons_ne_nil _ _)⟩

/-- C10.  Statistics consistency: after any run, `total_files` equals
the sum of the `files_by_type` counts, equals the sum of the
`files_by_owner` counts, and equals the number of scanned files whose
processing fully succeeded (stat, mkdir, move and metadata record);
a failing file contributes to no count. -/
theorem c10_statistics_consistency (outDir : String) (scan : ScanResult) (fs0 : List String)
    (finalizeErr : Option String) :
    (organize_all_files outDir scan fs0 finalizeErr).2.total_files =
      sumCounts (organize_all_files outDir scan fs0 finalizeErr).2.files_by_type ∧
    (organize_all_files outDir scan fs0 finalizeErr).2.total_files =
      sumCounts (organize_all_files outDir scan fs0 finalizeErr).2.files_by_owner ∧
    (organize_all_files outDir scan fs0 finalizeErr).2.total_files = countOk scan.files := by
  obtain ⟨files, scanErr⟩ := scan
  cases files with
  | nil =>
    cases finalizeErr <;>
      simp [organize_all_files, get_results, sumCounts, countOk, initialStats]
  | cons f rest =>
    obtain ⟨ht, hty, how⟩ :=
      processAll_counts outDir (f :: rest) fs0 (initialStats scanErr)
    have hty0 : sumCounts (initialStats scanErr).byType = 0 := rfl
    have how0 : sumCounts (initialStats scanErr).byOwner = 0 := rfl
    have ht0 : (initialStats scanErr).total = 0 := rfl
    rw [hty0, Nat.zero_add] at hty
    rw [how0, Nat.zero_add] at how
    rw [ht0, Nat.zero_add] at ht
    cases finalizeErr <;>
      simp only [organize_all_files, List.isEmpty_cons, Bool.false_eq_true, if_false,
        get_results] <;>
      exact ⟨by rw [ht, hty], by rw [ht, how], ht⟩

/-- C3 (amended).  Session lifecycle: the session is created `running`;
a run whose scan found at least one file transitions exactly once to
`completed` (setting `completed_at`) when finalization does not raise,
and to `failed` (with the error message) when it does; a run over an
empty scan returns `total_files = 0` with the informational "No files
found" error and no crash, but leaves the session at `running` — the
early return skips the completion transition; `failed` occurs only via
a finalization exception on a non-empty scan. -/
theorem c3_session_lifecycle (outDir : String) (scan : ScanResult) (fs0 : List String)
    (finalizeErr : Option String) :
    (scan.files ≠ [] → finalizeErr = none →
      (organize_all_files outDir scan fs0 finalizeErr).1.status = SessStatus.completed ∧
      (organize_all_files outDir scan fs0 finalizeErr).1.completed_at_set = true) ∧
    (scan.files = [] →
      (organize_all_files outDir scan fs0 finalizeErr).1.status = SessStatus.running ∧
      (organize_all_files outDir scan fs0 finalizeErr).1.completed_at_set = false ∧
      (organize_all_files outDir scan fs0 finalizeErr).2.total_files = 0 ∧
      "No files found in the input directory" ∈
        (organize_all_files outDir scan fs0 finalizeErr).2.errors) ∧
    (∀ e, scan.files ≠ [] → finalizeErr = some e →
      (organize_all_files outDir scan fs0 finalizeErr).1.status = SessStatus.failed ∧
      (organize_all_files outDir scan fs0 finalizeErr).1.error_message = some e ∧
      (organize_all_files outDir scan fs0 finalizeErr).1.completed_at_set = true) ∧
    ((organize_all_files outDir scan fs0 finalizeErr).1.status = SessStatus.failed →
      scan.files ≠ [] ∧ finalizeErr ≠ none) := by
  obtain ⟨files, scanErr⟩ := scan
  cases files with
  | nil =>
    refine ⟨fun h _ => absurd rfl h, fun _ => ?_, fun e h _ => absurd rfl h, fun h => ?_⟩
    · cases finalizeErr <;>
        simp [organize_all_files, get_results, initialStats]
    · cases finalizeErr <;> simp [organize_all_files] at h
  | cons f rest =>
    cases finalizeErr with
    | none =>
      refine ⟨fun _ _ => ?_, fun h => ?_, fun e he1 he2 => ?_, fun h => ?_⟩
      · exact ⟨by simp [organize_all_files], by simp [organize_all_files]⟩
      · exact absurd h (List.cons_ne_nil f rest)
      · exact absurd he2 (by simp)
      · exfalso
        simp [organize_all_files] at h
    | some e =>
      refine ⟨fun _ he => ?_, fun h => ?_, fun e2 he1 he2 => ?_, fun _ => ?_⟩
      · exact absurd he (by simp)
      · exact absurd h (List.cons_ne_nil f rest)
      · have he3 : e = e2 := by injection he2
        subst he3
        exact ⟨by simp [organize_all_files], by simp [organize_all_files],
          by simp [organize_all_files]⟩
      · exact ⟨List.cons_ne_nil f rest, by simp⟩

/-- C3 counterexample.  A run over an empty input directory returns
`total_files = 0` with the informational error, but the session stays
at `running`: it is never transitioned to `completed`, contradicting
the claim's "transitions ... to 'completed' ... on every normal exit —
including a run over an empty input directory". -/
theorem c3_counterexample :
    (organize_all_files "out" ⟨[], none⟩ [] none).1.status = SessStatus.running ∧
    (organize_all_files "out" ⟨[], none⟩ [] none).1.status ≠ SessStatus.completed ∧
    (organize_all_files "out" ⟨[], none⟩ [] none).2.total_files = 0 ∧
    (organize_all_files "out" ⟨[], none⟩ [] none).2.errors =
      ["No files found in the input directory"] := by
  refine ⟨rfl, by decide, rfl, rfl⟩

/-- C3 witness: a run over one successfully processed file with clean
finalization marks the session `completed` with `completed_at` set, and
a finalization exception marks it `failed`. -/
theorem c3_witness :
    ((organize_all_files "out"
        ⟨[⟨"in/a.txt", "a.txt", ⟨Except.ok 3, Except.ok (), Except.ok (), Except.ok ()⟩⟩], none⟩
        [] none).1.status = SessStatus.completed ∧
      (organize_all_files "out"
        ⟨[⟨"in/a.txt", "a.txt", ⟨Except.ok 3, Except.ok (), Except.ok (), Except.ok ()⟩⟩], none⟩
        [] none).1.completed_at_set = true) ∧
    (organize_all_files "out"
        ⟨[⟨"in/a.txt", "a.txt", ⟨Except.ok 3, Except.ok (), Except.ok (), Except.ok ()⟩⟩], none⟩
        [] (some "db down")).1.status = SessStatus.failed :=
  ⟨(c3_session_lifecycle "out"
      ⟨[⟨"in/a.txt", "a.txt", ⟨Except.ok 3, Except.ok (), Except.ok (), Except.ok ()⟩⟩], none⟩
      [] none).1 (List.cons_ne_nil _ _) rfl,
   ((c3_session_lifecycle "out"
      ⟨[⟨"in/a.txt", "a.txt", ⟨Except.ok 3, Except.ok (), Except.ok (), Except.ok ()⟩⟩], none⟩
      [] (some "db down")).2.2.1 "db down" (List.cons_ne_nil _ _) rfl).1⟩

theorem generate_unique_shape (fs : List String) (dir fname : String) :
    ∃ x, generate_unique_filename fs dir fname = (pathJoin dir x, x) := by
  unfold generate_unique_filename
  split
  · split
    · rename_i nk hnk
      exact ⟨nk.1, rfl⟩
    · exact ⟨fname, rfl⟩
  · exact ⟨fname, rfl⟩

theorem process_files_moves_sound (outDir : String) (files fs : List String)
    (f d : String) (h : (f, d) ∈ process_files_moves outDir files fs) :
    (lookupStr VIEW_FILE_TYPE_MAPPINGS (asciiLower (pathSuffix f))).isSome = true ∧
    ∃ folder x, lookupStr VIEW_FILE_TYPE_MAPPINGS (asciiLower (pathSuffix f)) = some folder ∧
      d = pathJoin (pathJoin (pathJoin outDir folder) (views_extract_owner_name f)) x := by
  induction files generalizing fs with
  | nil => simp [process_files_moves] at h
  | cons g rest ih =>
    unfold process_files_moves at h
    rcases hl : lookupStr VIEW_FILE_TYPE_MAPPINGS (asciiLower (pathSuffix g)) with _ | folder
    · rw [hl] at h
      exact ih fs h
    · rw [hl] at h
      rcases List.mem_cons.mp h with he | he
      · injection he with hf hd
        subst hf
        obtain ⟨x, hx⟩ := generate_unique_shape fs
          (pathJoin (pathJoin outDir folder) (views_extract_owner_name f)) f
        refine ⟨by simp [hl], folder, x, hl, ?_⟩
        rw [hd]
        unfold handle_duplicate_filename
        rw [hx]
      · exact ih _ he

theorem process_files_moves_coverage (outDir : String) (files : List String) :
    ∀ fs f, f ∈ files →
      (lookupStr VIEW_FILE_TYPE_MAPPINGS (asciiLower (pathSuffix f))).isSome = true →
      ∃ d, (f, d) ∈ process_files_moves outDir files fs := by
  induction files with
  | nil => intro fs f hf; simp at hf
  | cons g rest ih =>
    intro fs f hf hsome
    rcases List.mem_cons.mp hf with he | he
    · subst he
      rcases hl : lookupStr VIEW_FILE_TYPE_MAPPINGS (asciiLower (pathSuffix f)) with _ | folder
      · rw [hl] at hsome
        cases hsome
      · refine ⟨handle_duplicate_filename fs
          (pathJoin (pathJoin outDir folder) (views_extract_owner_name f)) f, ?_⟩
        unfold process_files_moves
        rw [hl]
        exact List.mem_cons_self _ _
    · rcases hl : lookupStr VIEW_FILE_TYPE_MAPPINGS (asciiLower (pathSuffix g)) with _ | folder
      · obtain ⟨d, hd⟩ := ih fs f he hsome
        refine ⟨d, ?_⟩
        unfold process_files_moves
        rw [hl]
        exact hd
      · obtain ⟨d, hd⟩ := ih (fs ++ [handle_duplicate_filename fs
          (pathJoin (pathJoin outDir folder) (views_extract_owner_name g)) g]) f he hsome
        refine ⟨d, ?_⟩
        unfold process_files_moves
        rw [hl]
        exact List.mem_cons_of_mem _ hd

/-- C2 (amended).  Relocation targets: in the `FileOrganizer` engine,
every scanned file whose side effects succeed is relocated to
`output_directory/category/owner/...` where the category is the static
mapping of the lowercased extension and unknown or empty extensions map
to `"otherfiles"`.  In the `views.process_files` generation, however, a
file is relocated if and only if its lowercased extension is a key of
that generation's mapping table — files with unmapped extensions are
skipped entirely, not routed to `"otherfiles"` —, and a relocated file
goes to `output_directory/type_folder/owner/...`. -/
theorem c2_relocation_engine (outDir : String) :
    (∀ fs st f, fileFailure f = none →
      ∃ m, (organize_file outDir fs st f).2.2 = some m ∧
        ∃ x, m.new_path =
          pathJoin (pathJoin (pathJoin outDir (get_file_type_category f.name))
            (extract_owner_name KNOWN_OWNERS f.name)) x) ∧
    (∀ name, lookupStr FILE_TYPE_MAPPINGS (asciiLower (pathSuffix name)) = none →
      get_file_type_category name = "otherfiles") ∧
    (∀ files fs f, f ∈ files →
      ((∃ d, (f, d) ∈ process_files_moves outDir files fs) ↔
        (lookupStr VIEW_FILE_TYPE_MAPPINGS (asciiLower (pathSuffix f))).isSome = true)) ∧
    (∀ files fs f d, (f, d) ∈ process_files_moves outDir files fs →
      ∃ folder x,
        lookupStr VIEW_FILE_TYPE_MAPPINGS (asciiLower (pathSuffix f)) = some folder ∧
        d = pathJoin (pathJoin (pathJoin outDir folder) (views_extract_owner_name f)) x) := by
  refine ⟨?_, ?_, ?_, ?_⟩
  · intro fs st f hok
    obtain ⟨_, _, _, _, m, hm, hpath⟩ := organize_file_ok outDir fs st f hok
    obtain ⟨x, hx⟩ := generate_unique_shape fs
      (pathJoin (pathJoin outDir (get_file_type_category f.name))
        (extract_owner_name KNOWN_OWNERS f.name)) f.name
    refine ⟨m, hm, x, ?_⟩
    rw [hpath, hx]
  · intro name h
    unfold get_file_type_category
    rw [h]
    rfl
  · intro files fs f hf
    constructor
    · intro ⟨d, hd⟩
      exact (process_files_moves_sound outDir files fs f d hd).1
    · intro hsome
      exact process_files_moves_coverage outDir files fs f hf hsome
  · intro files fs f d hd
    exact (process_files_moves_sound outDir files fs f d hd).2

/-- C2 counterexample.  The `views.process_files` generation relocates
nothing for a file whose extension is not in its mapping table: a scan
containing only `data.xyz` produces an empty move list, contradicting
"relocates every regular file ... including files whose extension is
not in the static mapping table".  (The `FileOrganizer` generation
would have classified it `otherfiles`.) -/
theorem c2_counterexample :
    process_files_moves "out" ["data.xyz"] [] = [] ∧
    lookupStr VIEW_FILE_TYPE_MAPPINGS (asciiLower (pathSuffix "data.xyz")) = none ∧
    get_file_type_category "data.xyz" = "otherfiles" := by
  refine ⟨by decide, by decide, by decide⟩

/-- C2 witness: a successfully processed `photo.png` lands under
`out/pngfiles/unknown/`, and in the views generation `b.mp4` is moved
exactly because `.mp4` is a key of the table, to
`out/mp4files/b/b.mp4`. -/
theorem c2_witness :
    (∃ m, (organize_file "out" [] ⟨0, [], [], 0, []⟩
        ⟨"in/photo.png", "photo.png",
          ⟨Except.ok 7, Except.ok (), Except.ok (), Except.ok ()⟩⟩).2.2 = some m ∧
      ∃ x, m.new_path =
        pathJoin (pathJoin (pathJoin "out" (get_file_type_category "photo.png"))
          (extract_owner_name KNOWN_OWNERS "photo.png")) x) ∧
    ((∃ d, ("b.mp4", d) ∈ process_files_moves "out" ["b.mp4"] []) ↔
      (lookupStr VIEW_FILE_TYPE_MAPPINGS (asciiLower (pathSuffix "b.mp4"))).isSome = true) ∧
    process_files_moves "out" ["b.mp4"] [] = [("b.mp4", "out/mp4files/b/b.mp4")] :=
  ⟨(c2_relocation_engine "out").1 [] ⟨0, [], [], 0, []⟩
      ⟨"in/photo.png", "photo.png",
        ⟨Except.ok 7, Except.ok (), Except.ok (), Except.ok ()⟩⟩ (by decide),
   (c2_relocation_engine "out").2.2.1 ["b.mp4"] [] "b.mp4" (by decide),
   by decide⟩

theorem mem_insertByCount (x a : String × Nat) (l : List (String × Nat))
    (h : a ∈ insertByCount x l) : a = x ∨ a ∈ l := by
  induction l with
  | nil => simpa [insertByCount] using h
  | cons y ys ih =>
    unfold insertByCount at h
    split at h
    · simpa using h
    · rcases List.mem_cons.mp h with he | he
      · simp [he]
      · rcases ih he with he2 | he2
        · exact Or.inl he2
        · simp [he2]

theorem foldl_insertByCount_mem (a : String × Nat) (l : List (String × Nat)) :
    ∀ acc, a ∈ l.foldl (fun acc x => insertByCount x acc) acc → a ∈ acc ∨ a ∈ l := by
  induction l with
  | nil => intro acc h2; simpa using h2
  | cons x xs ih =>
    intro acc h2
    rcases ih (insertByCount x acc) h2 with h3 | h3
    · rcases mem_insertByCount x a acc h3 with h4 | h4
      · simp [h4]
      · exact Or.inl h4
    · simp [h3]

theorem mem_sortByCountDesc (l : List (String × Nat)) (a : String × Nat)
    (h : a ∈ sortByCountDesc l) : a ∈ l := by
  rcases foldl_insertByCount_mem a l [] h with h2 | h2
  · simp at h2
  · exact h2

theorem mem_dedupFirstAux (l seen : List String) (w : String)
    (h : w ∈ dedupFirstAux l seen) : w ∈ l := by
  induction l generalizing seen with
  | nil => simpa [dedupFirstAux] using h
  | cons x xs ih =>
    unfold dedupFirstAux at h
    split at h
    · exact List.mem_cons_of_mem _ (ih _ h)
    · rcases List.mem_cons.mp h with he | he
      · simp [he]
      · exact List.mem_cons_of_mem _ (ih _ he)

/-- C7.  Keyword extraction: whitespace-only (or empty) input yields
the empty string; every returned keyword survives the stopword and
length-at-most-2 filters; and on the claim's concrete input the three
most frequent remaining tokens are returned in descending frequency
with ties in first-encountered order, joined by `", "`. -/
theorem c7_keyword_extraction :
    (∀ text n, text.data.all isSpaceChar = true → extract_keywords text n = "") ∧
    (∀ text n w, w ∈ keywordList text n →
      stop_words.contains w = false ∧ w.length > 2) ∧
    extract_keywords "The the THE cat sat on the mat mat mat" 3 = "mat, cat, sat" := by
  refine ⟨?_, ?_, by decide⟩
  · intro text n h
    unfold extract_keywords
    rw [h]
    simp
  · intro text n w h
    unfold keywordList at h
    rw [List.mem_map] at h
    obtain ⟨p, hp, hw⟩ := h
    have hp2 := mem_sortByCountDesc _ _ (List.mem_of_mem_take hp)
    rw [List.mem_map] at hp2
    obtain ⟨w2, hw2, he⟩ := hp2
    have hww : w2 = w := by rw [← hw, ← he]
    subst hww
    have hfil := mem_dedupFirstAux _ _ _ hw2
    have := List.of_mem_filter hfil
    simp at this
    exact ⟨by simpa using this.1, this.2⟩

/-- C7 witness: the empty-input and filter clauses at concrete inputs,
together with the claim's concrete example. -/
theorem c7_witness :
    extract_keywords "   " 10 = "" ∧
    (stop_words.contains "mat" = false ∧ "mat".length > 2) ∧
    extract_keywords "The the THE cat sat on the mat mat mat" 3 = "mat, cat, sat" :=
  ⟨c7_keyword_extraction.1 "   " 10 (by decide),
   c7_keyword_extraction.2.1 "The the THE cat sat on the mat mat mat" 3 "mat" (by decide),
   c7_keyword_extraction.2.2⟩

/-- C5 (amended).  Analysis error containment: text extraction returns
the empty string on an unsupported extension, on a missing optional
decoder, and on any read/decode failure, and never raises (it is a
total function); a non-CSV file whose extraction fails (empty text) is
recorded with empty keywords and empty summary; but a CSV file whose
analysis fails is recorded with empty keywords and the non-empty
summary `"Error analyzing CSV file: <message>"` — only the keywords
half of the claim holds on the CSV path. -/
theorem c5_analysis_error_containment (pdfAvail docxAvail : Bool) (ext : String)
    (readText : Except String String) (pdfPages docxParas : Except String (List String)) :
    (ext ∉ [".txt", ".csv", ".pdf", ".docx"] →
      extract_text_from_file pdfAvail docxAvail ext readText pdfPages docxParas = "") ∧
    (ext = ".pdf" → pdfAvail = false →
      extract_text_from_file pdfAvail docxAvail ext readText pdfPages docxParas = "") ∧
    (ext = ".docx" → docxAvail = false →
      extract_text_from_file pdfAvail docxAvail ext readText pdfPages docxParas = "") ∧
    (∀ e, readText = Except.error e → pdfPages = Except.error e → docxParas = Except.error e →
      extract_text_from_file pdfAvail docxAvail ext readText pdfPages docxParas = "") ∧
    (∀ mkSummary, analyze_text_file_nonCsv "" mkSummary = ("", "")) ∧
    (∀ e body, (analyze_csv_file (Except.error e) body).1 = "" ∧
      (analyze_csv_file (Except.error e) body).2 = "Error analyzing CSV file: " ++ e) ∧
    (∀ lines body e, lines ≠ [] → body lines = Except.error e →
      (analyze_csv_file (Except.ok lines) body).1 = "" ∧
      (analyze_csv_file (Except.ok lines) body).2 = "Error analyzing CSV file: " ++ e) := by
  refine ⟨?_, ?_, ?_, ?_, ?_, ?_, ?_⟩
  · intro hext
    simp at hext
    obtain ⟨h1, h2, h3, h4⟩ := hext
    simp [extract_text_from_file, h1, h2, h3, h4]
  · intro he hp
    subst he
    subst hp
    cases readText <;> simp [extract_text_from_file]
  · intro he hp
    subst he
    subst hp
    cases readText <;> cases pdfPages <;> simp [extract_text_from_file]
  · intro e h1 h2 h3
    subst h1
    subst h2
    subst h3
    unfold extract_text_from_file
    split
    · rfl
    · split
      · rfl
      · split
        · rfl
        · split
          · rfl
          · rfl
  · intro mkSummary
    simp [analyze_text_file_nonCsv]
  · intro e body
    exact ⟨rfl, rfl⟩
  · intro lines body e hne hb
    simp only [analyze_csv_file]
    rw [if_neg (by simpa using hne), hb]
    exact ⟨rfl, rfl⟩

/-- C5 counterexample.  When CSV analysis fails (here: the file read
raises "disk error"), the recorded summary is the error string, which
is not the empty string — contradicting "that file's keywords and
summary are both recorded as the empty string". -/
theorem c5_counterexample :
    (analyze_csv_file (Except.error "disk error") (fun _ => Except.ok ("", ""))).2 =
      "Error analyzing CSV file: disk error" ∧
    (analyze_csv_file (Except.error "disk error") (fun _ => Except.ok ("", ""))).2 ≠ "" := by
  exact ⟨rfl, by decide⟩

/-- C5 witness: the containment clauses evaluated at concrete inputs —
an unsupported `.exe`, a PDF without the decoder, a failing `.txt`
read, a non-CSV file with empty extracted text, and a failing CSV
analysis. -/
theorem c5_witness :
    extract_text_from_file false false ".exe" (Except.ok "x") (Except.ok [])
      (Except.ok []) = "" ∧
    extract_text_from_file false true ".pdf" (Except.ok "x") (Except.ok ["p"])
      (Except.ok []) = "" ∧
    extract_text_from_file true true ".txt" (Except.error "boom") (Except.error "boom")
      (Except.error "boom") = "" ∧
    analyze_text_file_nonCsv "" (fun t => t) = ("", "") ∧
    (analyze_csv_file (Except.error "boom") (fun _ => Except.ok ("", ""))).1 = "" :=
  ⟨(c5_analysis_error_containment false false ".exe" (Except.ok "x") (Except.ok [])
      (Except.ok [])).1 (by decide),
   (c5_analysis_error_containment false true ".pdf" (Except.ok "x") (Except.ok ["p"])
      (Except.ok [])).2.1 rfl rfl,
   (c5_analysis_error_containment true true ".txt" (Except.error "boom")
      (Except.error "boom") (Except.error "boom")).2.2.2.1 "boom" rfl rfl rfl,
   (c5_analysis_error_containment true true ".txt" (Except.error "boom")
      (Except.error "boom") (Except.error "boom")).2.2.2.2.1 (fun t => t),
   ((c5_analysis_error_containment true true ".txt" (Except.error "boom")
      (Except.error "boom") (Except.error "boom")).2.2.2.2.2.1 "boom"
      (fun _ => Except.ok ("", ""))).1⟩

/-- C8.  On a CSV with header `customer_email, order_date, amount` (with
representative sample values), the analyzer flags exactly
`customer_email` as PII — `order_date` is excluded by the non-PII
vocabulary and `amount` matches neither name nor value patterns — and
for any column whose sample value matches the numeric pattern the
inferred type is `currency` exactly when the lowercased column name is
in the money vocabulary, else `numeric`; in particular `amount` is
`currency`. -/
theorem c8_tabular_pii_and_types :
    get_pii_columns ["customer_email", "order_date", "amount"]
      (fun col =>
        if col == "customer_email" then ["john.doe@example.com"]
        else if col == "order_date" then ["2024-01-15"]
        else if col == "amount" then ["250.50"] else []) = ["customer_email"] ∧
    (∀ col v, numericRe v = true →
      detect_data_type col v =
        some (if MONEY_COLS.contains (asciiLower col) then "currency" else "numeric")) ∧
    detect_data_type "amount" "250.50" = some "currency" ∧
    detect_data_type "qty" "250.50" = some "numeric" ∧
    detect_data_type "order_date" "2024-01-15" = some "date" := by
  refine ⟨by decide, ?_, by decide, by decide, by decide⟩
  intro col v h
  have hne : v ≠ "" := by
    intro he
    subst he
    exact absurd h (by decide)
  unfold detect_data_type
  rw [if_neg (by simpa using hne), if_pos h]

/-- C8 witness: the general currency/numeric clause applied at the
`amount` column with value `250.50`, whose name is in the money
vocabulary. -/
theorem c8_witness :
    detect_data_type "amount" "250.50" =
      some (if MONEY_COLS.contains (asciiLower "amount") then "currency" else "numeric") ∧
    (if MONEY_COLS.contains (asciiLower "amount") then "currency" else "numeric") =
      "currency" :=
  ⟨c8_tabular_pii_and_types.2.1 "amount" "250.50" (by decide), by decide⟩

/-- C9.  The claim (and text_analysis.py line 853's own allow-list,
which names `sales_rep` as "clearly PII") says a `sales_rep` column
whose sampled value is shaped like `Firstname Lastname` is flagged.
The code does not flag it: the non-PII exclusion list (lines 800-805)
contains `"rep"` and `"sales_rep"`, and the exclusion check runs first
and skips the column before the name-shape check is ever reached, so
that allow-list entry is dead code.  `contact_person`, which is in the
same allow-list but not excluded, shows the name-shape branch is
otherwise live. -/
theorem c9_name_shape_sales_rep_dead :
    get_pii_columns ["sales_rep"] (fun _ => ["John Smith"]) = [] ∧
    nameShapeRe "John Smith" = true ∧
    PERSON_NAME_COLS.contains "sales_rep" = true ∧
    NON_PII_PATTERNS.any (fun p => containsSub (asciiLower "sales_rep") p) = true ∧
    get_pii_columns ["contact_person"] (fun _ => ["John Smith"]) = ["contact_person"] := by
  refine ⟨by decide, by decide, by decide, by decide, by decide⟩
